import Mathlib

/-!
Verification development for the depthify repository.

The embedding follows src/depthify/depthify.py and src/depthify/gui_utils.py.
The sample store is the list DepthViewer._points; the depth field synthesizer
is DepthViewer.updateDepthMap; the visualizer helpers are ColorBar.getColor,
the colormap lookup of updateDepthMap and MainWindow.createDepthImage; the
session controller operations are MainWindow.setImage and
MainWindow.exportDepthMap.  Machine floats of the original are embedded as
exact rationals; numpy arrays as lists of lists of naturals.
-/

namespace Depthify

/-- A sample as appended by DepthViewer.addPoint (depthify.py line 103): the
continuous image position paired with the depth value. -/
abbrev Sample : Type := (ℚ × ℚ) × ℚ

/-- DepthViewer.addPoint (depthify.py lines 99 to 104): appends the sample to
the point list. -/
def addPoint (pts : List Sample) (p : ℚ × ℚ) (depth : ℚ) : List Sample :=
  pts ++ [(p, depth)]

/-- The error raised by pop on an empty Python list. -/
inductive IndexErr : Type
  | indexError
deriving DecidableEq

/-- Result of the pop call on a Python list: an IndexError on the empty list,
otherwise the list with its last element removed. -/
def listPop (pts : List Sample) : Except IndexErr (List Sample) :=
  match pts with
  | [] => .error .indexError
  | _ :: _ => .ok pts.dropLast

/-- DepthViewer.undoPoint (depthify.py lines 106 to 112): pop the last sample,
catching the IndexError so that an empty list is left unchanged. -/
def undoPoint (pts : List Sample) : List Sample :=
  match listPop pts with
  | .ok l => l
  | .error _ => pts

/-- Positions of the samples, as extracted by the zip call on line 139. -/
def positions (pts : List Sample) : List (ℚ × ℚ) := pts.map Prod.fst

/-- Twice the signed area of the triangle on the three given points. -/
def cross (a b c : ℚ × ℚ) : ℚ :=
  (b.1 - a.1) * (c.2 - a.2) - (b.2 - a.2) * (c.1 - a.1)

/-- A triangle of a triangulation of the sample positions, carrying the depth
value associated with each vertex. -/
structure Tri : Type where
  p1 : ℚ × ℚ
  p2 : ℚ × ℚ
  p3 : ℚ × ℚ
  v1 : ℚ
  v2 : ℚ
  v3 : ℚ
deriving DecidableEq

/-- Twice the signed area of the triangle, the barycentric denominator. -/
def Tri.denom (t : Tri) : ℚ := cross t.p1 t.p2 t.p3

/-- First barycentric coordinate of the query point with respect to the
triangle. -/
def Tri.lam1 (t : Tri) (q : ℚ × ℚ) : ℚ := cross q t.p2 t.p3 / t.denom

/-- Second barycentric coordinate of the query point with respect to the
triangle. -/
def Tri.lam2 (t : Tri) (q : ℚ × ℚ) : ℚ := cross t.p1 q t.p3 / t.denom

/-- Third barycentric coordinate of the query point with respect to the
triangle. -/
def Tri.lam3 (t : Tri) (q : ℚ × ℚ) : ℚ := cross t.p1 t.p2 q / t.denom

/-- Barycentric containment test: the triangle is nondegenerate and all three
barycentric coordinates of the query point are nonnegative. -/
def Tri.contains (t : Tri) (q : ℚ × ℚ) : Bool :=
  decide (t.denom ≠ 0 ∧ 0 ≤ t.lam1 q ∧ 0 ≤ t.lam2 q ∧ 0 ≤ t.lam3 q)

/-- Value of the linear barycentric interpolant of the triangle at the query
point. -/
def Tri.valueAt (t : Tri) (q : ℚ × ℚ) : ℚ :=
  t.lam1 q * t.v1 + t.lam2 q * t.v2 + t.lam3 q * t.v3

/-- Modelled from the spec: scipy.interpolate.griddata with the default linear
method (depthify.py line 147, code not in this repository) evaluates the
linear barycentric interpolant over the Delaunay triangulation of the sample
positions; a query point contained in no triangle, in particular any point
outside the convex hull of the positions, receives the fill value 255.  The
triangulation scipy builds is not part of this repository either, so it is
taken as an argument. -/
def griddataAt (tris : List Tri) (q : ℚ × ℚ) : ℚ :=
  match tris.find? (fun t => t.contains q) with
  | some t => t.valueAt q
  | none => 255

/-- The clip call followed by the uint8 cast (depthify.py line 150): clamp to
the interval from 0 to 255, then truncate to an integer; after the clamp the
value is nonnegative, so truncation toward zero is the floor. -/
def quantize (x : ℚ) : ℕ := (Int.toNat ⌊max 0 (min x 255)⌋)

/-- Modelled from the spec: the qhull library used by scipy raises an error
when the scattered input points are degenerate, that is when the positions do
not affinely span the plane (all triples colinear, which covers duplicate
points as well); this code is not in this repository. -/
inductive QhullErr : Type
  | qhullError
deriving DecidableEq

/-- True when every triple of input positions is colinear, so that the points
do not affinely span the plane and no triangulation exists. -/
def degenerateInput (ps : List (ℚ × ℚ)) : Bool :=
  ps.all fun a => ps.all fun b => ps.all fun c => decide (cross a b c = 0)

/-- One row of the interpolated grid: the interpolant evaluated at the integer
pixel centers of row y, quantized (depthify.py lines 146 to 150). -/
def depthRow (tris : List Tri) (w : ℕ) (y : ℕ) : List ℕ :=
  (List.range w).map fun x : ℕ => quantize (griddataAt tris ((x : ℚ), (y : ℚ)))

/-- The full interpolated grid, height rows of width columns (depthify.py
lines 146 to 150). -/
def depthGrid (tris : List Tri) (w h : ℕ) : List (List ℕ) :=
  (List.range h).map fun y => depthRow tris w y

/-- DepthViewer.updateDepthMap (depthify.py lines 124 to 150), restricted to
the depth map array it stores: fewer than 4 points yields the uniform 255
field of the stored image size; otherwise griddata is evaluated on the pixel
grid, which propagates the qhull error when the positions are degenerate
because the method body contains no exception handler. -/
def updateDepthMap (tris : List Tri) (pts : List Sample) (w h : ℕ) :
    Except QhullErr (List (List ℕ)) :=
  if pts.length < 4 then .ok (List.replicate h (List.replicate w 255))
  else if degenerateInput (positions pts) then .error .qhullError
  else .ok (depthGrid tris w h)

/-- ColorBar.getColor (gui_utils.py lines 66 to 68), with the colormap
abstracted as a function from the normalized scalar to a color. -/
def getColor {α : Type} (cmap : ℚ → α) (value : ℚ) (span : ℚ × ℚ) : α :=
  cmap (1 - (value - min span.1 span.2) / (max span.1 span.2 - min span.1 span.2))

/-- The per cell colormap lookup of updateDepthMap (depthify.py line 154),
with the same abstract colormap. -/
def colorizeCell {α : Type} (cmap : ℚ → α) (z : ℚ) : α :=
  cmap (1 - z / 255)

/-- Errors of the compositing step.  The valueError constructor models the
generic ValueError numpy raises when np.stack is given arrays of different
shapes (numpy is not part of this repository).  The dimensionMismatch
constructor is modelled from the spec: the named DimensionMismatch error the
spec requires; no code in the repository raises it. -/
inductive StackErr : Type
  | valueError
  | dimensionMismatch
deriving DecidableEq

/-- Shape of a 2D array as the list of its row lengths. -/
def shapeOf (a : List (List ℕ)) : List ℕ := a.map List.length

/-- Modelled from the spec: np.stack on three 2D arrays along a new last axis
(depthify.py line 366, numpy code not in this repository) raises a ValueError
when the shapes differ and otherwise gathers the cells into triples. -/
def npStack3 (a b c : List (List ℕ)) :
    Except StackErr (List (List (ℕ × ℕ × ℕ))) :=
  if shapeOf a = shapeOf b ∧ shapeOf b = shapeOf c then
    .ok ((a.zip (b.zip c)).map fun r => r.1.zip (r.2.1.zip r.2.2))
  else .error .valueError

/-- An array of the same shape filled with the given value, as produced by
255 times np.ones_like (depthify.py line 360). -/
def onesLike (a : List (List ℕ)) (v : ℕ) : List (List ℕ) :=
  a.map fun r => r.map fun _ => v

/-- An array of zeros of the same shape, np.zeros_like (depthify.py
line 363). -/
def zerosLike (a : List (List ℕ)) : List (List ℕ) :=
  a.map fun r => r.map fun _ => 0

/-- MainWindow.createDepthImage (depthify.py lines 348 to 371), restricted to
the composite array: the grayscale source luminance, the depth map (or the
uniform 255 array of the source shape when no depth map exists yet) and a zero
channel of the depth map shape are stacked into a 3 channel raster. -/
def createDepthImage (img : List (List ℕ)) (dpth : Option (List (List ℕ))) :
    Except StackErr (List (List (ℕ × ℕ × ℕ))) :=
  let d := dpth.getD (onesLike img 255)
  npStack3 img d (zerosLike d)

/-- The depth relevant state of a DepthViewer (depthify.py lines 82 to 89):
the sample list, the stored image size as width and height, and the depth map
array if one has been computed. -/
structure DVState : Type where
  points : List Sample
  imageSize : ℕ × ℕ
  depthMap : Option (List (List ℕ))
deriving DecidableEq

/-- The initial DepthViewer state (depthify.py lines 85 to 89): no points, the
default image size of 50 by 50, and no depth map yet. -/
def DVState.init : DVState := ⟨[], (50, 50), none⟩

/-- One updateDepthMap call on a viewer state, recomputing the stored depth
map at the stored image size; the triangulation builder stands for the
Delaunay call hidden inside griddata. -/
def DVState.update (f : List Sample → List Tri) (s : DVState) :
    Except QhullErr DVState :=
  (updateDepthMap (f s.points) s.points s.imageSize.1 s.imageSize.2).map
    fun dm => { s with depthMap := some dm }

/-- DepthViewer.clearPoints (depthify.py lines 114 to 117): empty the point
list, then recompute the depth map at the stored image size. -/
def DVState.clearPoints (f : List Sample → List Tri) (s : DVState) :
    Except QhullErr DVState :=
  DVState.update f { s with points := [] }

/-- DepthViewer.setImageSize (depthify.py lines 91 to 93): store the new size
without recomputing the depth map. -/
def DVState.setImageSize (sz : ℕ × ℕ) (s : DVState) : DVState :=
  { s with imageSize := sz }

/-- The session controller state of MainWindow: the loaded file (a numeric
identifier standing for the path), the pixel size of the loaded source image,
and the depth viewer state. -/
structure Session : Type where
  filepath : Option ℕ
  sourceSize : Option (ℕ × ℕ)
  dv : DVState
deriving DecidableEq

/-- The initial session: no file loaded, the depth viewer in its initial
state. -/
def Session.init : Session := ⟨none, none, DVState.init⟩

/-- MainWindow.setImage (depthify.py lines 310 to 319): clear first, which
recomputes the depth map while the previously stored viewer image size is
still in effect, then record the new file and its image, and finally set the
viewer image size to the new image size without recomputing the depth map. -/
def Session.setImage (f : List Sample → List Tri) (sess : Session) (path : ℕ)
    (dims : ℕ × ℕ) : Except QhullErr Session :=
  (DVState.clearPoints f sess.dv).map fun dv1 =>
    { filepath := some path
      sourceSize := some dims
      dv := DVState.setImageSize dims dv1 }

/-- The error shown by MainWindow.exportDepthMap when no image file is set
(depthify.py lines 374 to 379). -/
inductive ExportErr : Type
  | noImageLoaded
deriving DecidableEq

/-- MainWindow.exportDepthMap (depthify.py lines 373 to 404), restricted to
the raster it writes: it aborts when no file is set, and otherwise the
exported raster is exactly the stored depth map array, since pg.makeQImage
preserves the array dimensions. -/
def Session.exportDepthMap (sess : Session) :
    Except ExportErr (Option (List (List ℕ))) :=
  match sess.filepath with
  | none => .error .noImageLoaded
  | some _ => .ok sess.dv.depthMap

end Depthify

namespace Depthify

/- Basic lemmas about the barycentric machinery. -/

theorem cross_swap_first (a c : ℚ × ℚ) : cross a a c = 0 := by
  unfold cross; ring

theorem cross_last_eq_first (a b : ℚ × ℚ) : cross a b a = 0 := by
  unfold cross; ring

theorem cross_last_eq_second (a b : ℚ × ℚ) : cross a b b = 0 := by
  unfold cross; ring

theorem contains_iff (t : Tri) (q : ℚ × ℚ) :
    t.contains q = true ↔
      (t.denom ≠ 0 ∧ 0 ≤ t.lam1 q ∧ 0 ≤ t.lam2 q ∧ 0 ≤ t.lam3 q) := by
  unfold Tri.contains
  exact decide_eq_true_iff

theorem lam_sum (t : Tri) (q : ℚ × ℚ) (hd : t.denom ≠ 0) :
    t.lam1 q + t.lam2 q + t.lam3 q = 1 := by
  unfold Tri.lam1 Tri.lam2 Tri.lam3
  rw [div_add_div_same, div_add_div_same, div_eq_one_iff_eq hd]
  unfold Tri.denom cross
  ring

theorem valueAt_vertex1 (t : Tri) (hd : t.denom ≠ 0) : t.valueAt t.p1 = t.v1 := by
  unfold Tri.valueAt Tri.lam1 Tri.lam2 Tri.lam3
  rw [cross_swap_first, cross_last_eq_first]
  have h1 : cross t.p1 t.p2 t.p3 = t.denom := rfl
  rw [h1, div_self hd]
  simp

theorem valueAt_vertex2 (t : Tri) (hd : t.denom ≠ 0) : t.valueAt t.p2 = t.v2 := by
  unfold Tri.valueAt Tri.lam1 Tri.lam2 Tri.lam3
  rw [cross_swap_first, cross_last_eq_second]
  have h1 : cross t.p1 t.p2 t.p3 = t.denom := rfl
  rw [h1, div_self hd]
  simp

theorem valueAt_vertex3 (t : Tri) (hd : t.denom ≠ 0) : t.valueAt t.p3 = t.v3 := by
  unfold Tri.valueAt Tri.lam1 Tri.lam2 Tri.lam3
  rw [cross_last_eq_first, cross_last_eq_second]
  have h1 : cross t.p1 t.p2 t.p3 = t.denom := rfl
  rw [h1, div_self hd]
  simp

theorem quantize_le_255 (x : ℚ) : quantize x ≤ 255 := by
  unfold quantize
  have h1 : max 0 (min x 255) ≤ (255 : ℚ) :=
    max_le (by norm_num) (min_le_right x 255)
  have h2 : ⌊max 0 (min x 255)⌋ ≤ (255 : ℤ) := by
    calc ⌊max 0 (min x 255)⌋ ≤ ⌊(255 : ℚ)⌋ := Int.floor_le_floor h1
    _ = 255 := by norm_num
  omega

theorem quantize_natCast (d : ℕ) (hd : d ≤ 255) : quantize (d : ℚ) = d := by
  unfold quantize
  have hmin : min (d : ℚ) 255 = (d : ℚ) := min_eq_left (by exact_mod_cast hd)
  have hmax : max (0 : ℚ) (d : ℚ) = (d : ℚ) := max_eq_right (by positivity)
  rw [hmin, hmax, Int.floor_natCast]
  omega

theorem lam_combo (t : Tri) (q : ℚ × ℚ) (hd : t.denom ≠ 0) :
    t.lam1 q • t.p1 + t.lam2 q • t.p2 + t.lam3 q • t.p3 = q := by
  have hd2 : cross t.p1 t.p2 t.p3 ≠ 0 := hd
  unfold Tri.lam1 Tri.lam2 Tri.lam3 Tri.denom
  apply Prod.ext
  · simp only [Prod.fst_add, Prod.smul_fst, smul_eq_mul]
    field_simp
    unfold cross
    ring
  · simp only [Prod.snd_add, Prod.smul_snd, smul_eq_mul]
    field_simp
    unfold cross
    ring

theorem mem_hull_of_contains (t : Tri) (q : ℚ × ℚ) (hc : t.contains q = true) :
    q ∈ convexHull ℚ ({t.p1, t.p2, t.p3} : Set (ℚ × ℚ)) := by
  obtain ⟨hd, h1, h2, h3⟩ := (contains_iff t q).1 hc
  have hcombo := lam_combo t q hd
  have hsum := lam_sum t q hd
  have hconv : Convex ℚ (convexHull ℚ ({t.p1, t.p2, t.p3} : Set (ℚ × ℚ))) :=
    convex_convexHull ℚ _
  have h0 : ∀ i ∈ (Finset.univ : Finset (Fin 3)),
      0 ≤ (![t.lam1 q, t.lam2 q, t.lam3 q]) i := by
    intro i _
    fin_cases i
    · simpa using h1
    · simpa using h2
    · simpa using h3
  have h1s : ∑ i ∈ (Finset.univ : Finset (Fin 3)),
      (![t.lam1 q, t.lam2 q, t.lam3 q]) i = 1 := by
    rw [Fin.sum_univ_three]
    simpa using hsum
  have hz : ∀ i ∈ (Finset.univ : Finset (Fin 3)),
      (![t.p1, t.p2, t.p3]) i ∈ convexHull ℚ ({t.p1, t.p2, t.p3} : Set (ℚ × ℚ)) := by
    intro i _
    fin_cases i
    · simpa using subset_convexHull ℚ ({t.p1, t.p2, t.p3} : Set (ℚ × ℚ))
        (show t.p1 ∈ ({t.p1, t.p2, t.p3} : Set (ℚ × ℚ)) by simp)
    · simpa using subset_convexHull ℚ ({t.p1, t.p2, t.p3} : Set (ℚ × ℚ))
        (show t.p2 ∈ ({t.p1, t.p2, t.p3} : Set (ℚ × ℚ)) by simp)
    · simpa using subset_convexHull ℚ ({t.p1, t.p2, t.p3} : Set (ℚ × ℚ))
        (show t.p3 ∈ ({t.p1, t.p2, t.p3} : Set (ℚ × ℚ)) by simp)
  have key := hconv.sum_mem h0 h1s hz
  rw [Fin.sum_univ_three] at key
  simp only [Matrix.cons_val_zero, Matrix.cons_val_one, Matrix.head_cons,
    Matrix.cons_val_two, Matrix.tail_cons] at key
  rwa [hcombo] at key

theorem depthGrid_getD (tris : List Tri) (w h x y : ℕ) (hx : x < w) (hy : y < h) :
    (((depthGrid tris w h).getD y []).getD x 256)
      = quantize (griddataAt tris ((x : ℚ), (y : ℚ))) := by
  have hrow : (depthGrid tris w h).getD y [] = depthRow tris w y := by
    unfold depthGrid
    rw [List.getD_eq_getElem?_getD, List.getElem?_map, List.getElem?_range hy]
    simp
  rw [hrow]
  unfold depthRow
  rw [List.getD_eq_getElem?_getD, List.getElem?_map, List.getElem?_range hx]
  simp

theorem undo_add (pts : List Sample) (p : ℚ × ℚ) (d : ℚ) :
    undoPoint (addPoint pts p d) = pts := by
  unfold undoPoint addPoint listPop
  cases pts with
  | nil => rfl
  | cons a l =>
    simp only [List.cons_append]
    rw [show a :: (l ++ [(p, d)]) = (a :: l) ++ [(p, d)] from rfl,
      List.dropLast_concat]

/- Claim theorems. -/

/-- C1: for every sample set with fewer than 4 samples and every positive
width and height, updateDepthMap returns a depth field with exactly height
rows and width columns in which every cell equals 255. -/
theorem c1_few_samples_uniform_255 (tris : List Tri) (pts : List Sample)
    (w h : ℕ) (hlt : pts.length < 4) (hw : 0 < w) (hh : 0 < h) :
    ∃ field, updateDepthMap tris pts w h = .ok field ∧
      field.length = h ∧ (∀ row ∈ field, row.length = w) ∧
      ∀ row ∈ field, ∀ v ∈ row, v = 255 := by
  refine ⟨List.replicate h (List.replicate w 255), ?_, by simp, ?_, ?_⟩
  · unfold updateDepthMap
    rw [if_pos hlt]
  · intro row hrow
    rw [List.eq_of_mem_replicate hrow]
    simp
  · intro row hrow v hv
    rw [List.eq_of_mem_replicate hrow] at hv
    exact List.eq_of_mem_replicate hv

/-- Witness for C1: the empty sample set on a 3 by 2 grid. -/
theorem c1_few_samples_uniform_255_witness :
    ∃ field, updateDepthMap [] [] 3 2 = .ok field ∧
      field.length = 2 ∧ (∀ row ∈ field, row.length = 3) ∧
      ∀ row ∈ field, ∀ v ∈ row, v = 255 :=
  c1_few_samples_uniform_255 [] [] 3 2 (by decide) (by decide) (by decide)

/-- C3: for every sample set, triangulation and positive grid dimensions,
every value of a depth field produced by updateDepthMap lies between 0 and 255
(values are naturals, so nonnegativity holds by construction) and the field
has exactly height rows and width columns. -/
theorem c3_values_in_range (tris : List Tri) (pts : List Sample) (w h : ℕ)
    (field : List (List ℕ)) (hw : 0 < w) (hh : 0 < h)
    (hf : updateDepthMap tris pts w h = .ok field) :
    field.length = h ∧ (∀ row ∈ field, row.length = w) ∧
      ∀ row ∈ field, ∀ v ∈ row, v ≤ 255 := by
  unfold updateDepthMap at hf
  by_cases hlt : pts.length < 4
  · rw [if_pos hlt] at hf
    simp only [Except.ok.injEq] at hf
    subst hf
    refine ⟨by simp, ?_, ?_⟩
    · intro row hrow
      rw [List.eq_of_mem_replicate hrow]
      simp
    · intro row hrow v hv
      rw [List.eq_of_mem_replicate hrow] at hv
      rw [List.eq_of_mem_replicate hv]
  · rw [if_neg hlt] at hf
    by_cases hdeg : degenerateInput (positions pts) = true
    · rw [if_pos hdeg] at hf
      simp at hf
    · rw [if_neg hdeg] at hf
      simp only [Except.ok.injEq] at hf
      subst hf
      unfold depthGrid depthRow
      refine ⟨by simp, ?_, ?_⟩
      · intro row hrow
        simp only [List.mem_map] at hrow
        obtain ⟨y, _, rfl⟩ := hrow
        simp
      · intro row hrow v hv
        simp only [List.mem_map] at hrow
        obtain ⟨y, _, rfl⟩ := hrow
        simp only [List.mem_map] at hv
        obtain ⟨x, _, rfl⟩ := hv
        exact quantize_le_255 _

/-- Witness for C3: the empty sample set on a 3 by 2 grid. -/
theorem c3_values_in_range_witness :
    (List.replicate 2 (List.replicate 3 255) : List (List ℕ)).length = 2 ∧
    (∀ row ∈ (List.replicate 2 (List.replicate 3 255) : List (List ℕ)),
      row.length = 3) ∧
    ∀ row ∈ (List.replicate 2 (List.replicate 3 255) : List (List ℕ)),
      ∀ v ∈ row, v ≤ 255 :=
  c3_values_in_range [] [] 3 2 (List.replicate 2 (List.replicate 3 255))
    (by decide) (by decide) rfl

/-- C2: with at least 4 samples, nondegenerate positions, and a triangulation
in which some triangle covers the pixel center and every covering triangle has
the pixel center as a vertex carrying the sample depth (both hold for the
Delaunay triangulation of distinct sample positions when the pixel center
coincides with a sample position), the synthesized field reproduces the sample
depth exactly at that pixel. -/
theorem c2_exact_at_sample_pixel (tris : List Tri) (pts : List Sample)
    (w h px py d2 : ℕ)
    (h4 : 4 ≤ pts.length)
    (hdeg : degenerateInput (positions pts) = false)
    (hpx : px < w) (hpy : py < h) (hd : d2 ≤ 255)
    (hmem : (((px : ℚ), (py : ℚ)), (d2 : ℚ)) ∈ pts)
    (hcov : ∃ t ∈ tris, t.contains ((px : ℚ), (py : ℚ)) = true)
    (hvert : ∀ t ∈ tris, t.contains ((px : ℚ), (py : ℚ)) = true →
      (t.p1 = ((px : ℚ), (py : ℚ)) ∧ t.v1 = (d2 : ℚ)) ∨
      (t.p2 = ((px : ℚ), (py : ℚ)) ∧ t.v2 = (d2 : ℚ)) ∨
      (t.p3 = ((px : ℚ), (py : ℚ)) ∧ t.v3 = (d2 : ℚ))) :
    ∃ field, updateDepthMap tris pts w h = .ok field ∧
      ((field.getD py []).getD px 256) = d2 := by
  have hne : ¬ pts.length < 4 := by omega
  refine ⟨depthGrid tris w h, ?_, ?_⟩
  · unfold updateDepthMap
    rw [if_neg hne, if_neg (by simp [hdeg])]
  · rw [depthGrid_getD tris w h px py hpx hpy]
    obtain ⟨t0, ht0mem, ht0c⟩ := hcov
    have hsome : (tris.find? (fun t => t.contains ((px : ℚ), (py : ℚ)))).isSome := by
      rw [List.find?_isSome]
      exact ⟨t0, ht0mem, ht0c⟩
    obtain ⟨t, hfindt⟩ := Option.isSome_iff_exists.mp hsome
    have htmem : t ∈ tris := List.mem_of_find?_eq_some hfindt
    have htc0 := List.find?_some hfindt
    have htc : t.contains ((px : ℚ), (py : ℚ)) = true := htc0
    have hdnz : t.denom ≠ 0 := ((contains_iff t _).1 htc).1
    unfold griddataAt
    rw [hfindt]
    show quantize (t.valueAt ((px : ℚ), (py : ℚ))) = d2
    rcases hvert t htmem htc with ⟨hp, hv⟩ | ⟨hp, hv⟩ | ⟨hp, hv⟩
    · rw [← hp, valueAt_vertex1 t hdnz, hv, quantize_natCast d2 hd]
    · rw [← hp, valueAt_vertex2 t hdnz, hv, quantize_natCast d2 hd]
    · rw [← hp, valueAt_vertex3 t hdnz, hv, quantize_natCast d2 hd]

/-- The four samples of the end to end scenario of the spec. -/
def demoSamples : List Sample :=
  [((10, 10), 0), ((90, 10), 255), ((10, 90), 128), ((90, 90), 64)]

/-- Lower left triangle of the Delaunay triangulation of the demo samples. -/
def demoTriA : Tri := ⟨(10, 10), (90, 10), (10, 90), 0, 255, 128⟩

/-- Upper right triangle of the Delaunay triangulation of the demo samples. -/
def demoTriB : Tri := ⟨(90, 10), (90, 90), (10, 90), 255, 64, 128⟩

/-- The Delaunay triangulation of the demo samples. -/
def demoTris : List Tri := [demoTriA, demoTriB]

/-- The demo sample positions are not all colinear. -/
theorem demoSamples_nondegenerate :
    degenerateInput (positions demoSamples) = false := by
  norm_num [degenerateInput, positions, demoSamples, cross]

/-- The lower left demo triangle covers the corner sample position. -/
theorem demoTriA_contains_corner :
    demoTriA.contains ((10 : ℚ), (10 : ℚ)) = true := by
  norm_num [demoTriA, Tri.contains, Tri.lam1, Tri.lam2, Tri.lam3, Tri.denom,
    cross]

/-- The upper right demo triangle does not cover the corner sample
position. -/
theorem demoTriB_not_contains_corner :
    ¬ demoTriB.contains ((10 : ℚ), (10 : ℚ)) = true := by
  norm_num [demoTriB, Tri.contains, Tri.lam1, Tri.lam2, Tri.lam3, Tri.denom,
    cross]

/-- Witness for C2: the spec scenario, sample at pixel (10, 10) with depth 0
on a 100 by 100 grid. -/
theorem c2_exact_at_sample_pixel_witness :
    ∃ field, updateDepthMap demoTris demoSamples 100 100 = .ok field ∧
      ((field.getD 10 []).getD 10 256) = 0 :=
  c2_exact_at_sample_pixel demoTris demoSamples 100 100 10 10 0
    (by simp [demoSamples])
    (by simpa using demoSamples_nondegenerate)
    (by decide) (by decide) (by decide)
    (by simp [demoSamples])
    (by
      refine ⟨demoTriA, by simp [demoTris], ?_⟩
      simpa using demoTriA_contains_corner)
    (by
      intro t htmem hc
      simp only [demoTris, List.mem_cons, List.not_mem_nil, or_false] at htmem
      rcases htmem with rfl | rfl
      · left
        simp [demoTriA]
      · exfalso
        have hb : ¬ demoTriB.contains ((10 : ℚ), (10 : ℚ)) = true :=
          demoTriB_not_contains_corner
        apply hb
        simpa using hc)

/-- C4: with at least 4 samples, nondegenerate positions and a triangulation
whose triangle vertices are sample positions (true of the Delaunay
triangulation scipy builds), every pixel whose center lies outside the convex
hull of the sample positions receives the fill value 255. -/
theorem c4_outside_hull_fill_255 (tris : List Tri) (pts : List Sample)
    (w h px py : ℕ)
    (h4 : 4 ≤ pts.length)
    (hdeg : degenerateInput (positions pts) = false)
    (hpx : px < w) (hpy : py < h)
    (htri : ∀ t ∈ tris, t.p1 ∈ positions pts ∧ t.p2 ∈ positions pts ∧
      t.p3 ∈ positions pts)
    (hout : ((px : ℚ), (py : ℚ)) ∉
      convexHull ℚ {q : ℚ × ℚ | q ∈ positions pts}) :
    ∃ field, updateDepthMap tris pts w h = .ok field ∧
      ((field.getD py []).getD px 256) = 255 := by
  have hne : ¬ pts.length < 4 := by omega
  refine ⟨depthGrid tris w h, ?_, ?_⟩
  · unfold updateDepthMap
    rw [if_neg hne, if_neg (by simp [hdeg])]
  · rw [depthGrid_getD tris w h px py hpx hpy]
    have hnone : tris.find? (fun t => t.contains ((px : ℚ), (py : ℚ))) = none := by
      rw [List.find?_eq_none]
      intro t htmem hc
      apply hout
      have hsub : ({t.p1, t.p2, t.p3} : Set (ℚ × ℚ)) ⊆
          {q : ℚ × ℚ | q ∈ positions pts} := by
        obtain ⟨h1, h2, h3⟩ := htri t htmem
        intro q hq
        simp only [Set.mem_insert_iff, Set.mem_singleton_iff] at hq
        simp only [Set.mem_setOf_eq]
        rcases hq with rfl | rfl | rfl
        · exact h1
        · exact h2
        · exact h3
      exact convexHull_mono hsub (mem_hull_of_contains t _ hc)
    unfold griddataAt
    rw [hnone]
    have h255 := quantize_natCast 255 (le_refl 255)
    simpa using h255

/-- The convex hull of the demo sample positions stays in the halfplane of
first coordinate at least 10, so the origin lies outside it. -/
theorem demo_origin_outside_hull :
    ((0 : ℚ), (0 : ℚ)) ∉ convexHull ℚ {q : ℚ × ℚ | q ∈ positions demoSamples} := by
  intro hmem
  have hsub : convexHull ℚ {q : ℚ × ℚ | q ∈ positions demoSamples} ⊆
      {q : ℚ × ℚ | 10 ≤ q.1} := by
    apply convexHull_min
    · intro q hq
      simp only [Set.mem_setOf_eq] at hq ⊢
      simp only [positions, demoSamples, List.map_cons, List.map_nil,
        List.mem_cons, List.not_mem_nil, or_false] at hq
      rcases hq with rfl | rfl | rfl | rfl <;> norm_num
    · intro x hx y hy a b ha hb hab
      simp only [Set.mem_setOf_eq] at hx hy ⊢
      have hx1 : (a • x + b • y).1 = a * x.1 + b * y.1 := by
        simp [Prod.fst_add, Prod.smul_fst, smul_eq_mul]
      rw [hx1]
      nlinarith
  have hcon := hsub hmem
  simp only [Set.mem_setOf_eq] at hcon
  norm_num at hcon

/-- Witness for C4: the spec scenario on a 100 by 100 grid; the pixel at the
origin lies outside the convex hull of the four samples and receives 255. -/
theorem c4_outside_hull_fill_255_witness :
    ∃ field, updateDepthMap demoTris demoSamples 100 100 = .ok field ∧
      ((field.getD 0 []).getD 0 256) = 255 :=
  c4_outside_hull_fill_255 demoTris demoSamples 100 100 0 0
    (by simp [demoSamples])
    (by simpa using demoSamples_nondegenerate)
    (by decide) (by decide)
    (by simp [demoTris, demoTriA, demoTriB, positions, demoSamples])
    (by simpa using demo_origin_outside_hull)

/-- C5: evaluation at the failing input: four colinear samples (at least 4
samples, degenerate triangulation) make updateDepthMap propagate the qhull
error, because the method has no exception handler around griddata, instead of
returning the uniform 255 field the spec requires. -/
theorem c5_colinear_propagates_error :
    updateDepthMap [] [((0, 0), 10), ((1, 0), 20), ((2, 0), 30), ((3, 0), 40)]
      2 2 = .error .qhullError := by
  unfold updateDepthMap
  simp [degenerateInput, positions, cross]

/-- C7: for every depth value between 0 and 255, the color bar lookup over the
span from 0 to 255 and the per cell field colorization agree: both evaluate
the same colormap at 1 - v/255. -/
theorem c7_colorbar_matches_field_colorization {α : Type} (cmap : ℚ → α)
    (v : ℕ) (hv : v ≤ 255) :
    getColor cmap (v : ℚ) (0, 255) = colorizeCell cmap (v : ℚ) := by
  unfold getColor colorizeCell
  norm_num

/-- Witness for C7: the identity colormap at depth value 7. -/
theorem c7_colorbar_matches_field_colorization_witness :
    getColor (fun q : ℚ => q) ((7 : ℕ) : ℚ) (0, 255)
      = colorizeCell (fun q : ℚ => q) ((7 : ℕ) : ℚ) :=
  c7_colorbar_matches_field_colorization (fun q : ℚ => q) 7 (by decide)

/-- C6 counterexample: for a 2 by 2 source and a 1 by 1 depth map the
composite fails with the generic ValueError of np.stack, not with the named
DimensionMismatch error the claim requires, so the claim is false at this
input. -/
theorem c6_counterexample :
    createDepthImage [[1, 2], [3, 4]] (some [[5]])
        = Except.error StackErr.valueError ∧
      createDepthImage [[1, 2], [3, 4]] (some [[5]])
        ≠ Except.error StackErr.dimensionMismatch := by
  constructor
  · rfl
  · intro hcon
    have h0 : createDepthImage [[1, 2], [3, 4]] (some [[5]])
        = Except.error StackErr.valueError := rfl
    rw [h0] at hcon
    cases Except.error.inj hcon

/-- C6 amended: with mismatched source and depth map shapes the composite does
fail, with the generic ValueError that np.stack raises, rather than silently
cropping or padding; but the error is not a named DimensionMismatch. -/
theorem c6_mismatch_fails_with_value_error (img dpth : List (List ℕ))
    (hne : shapeOf img ≠ shapeOf dpth) :
    createDepthImage img (some dpth) = .error .valueError := by
  show npStack3 img dpth (zerosLike dpth) = .error .valueError
  unfold npStack3
  rw [if_neg]
  intro hcon
  exact hne hcon.1

/-- Witness for the amended C6: a 2 by 2 source against a 1 by 1 depth map. -/
theorem c6_mismatch_fails_with_value_error_witness :
    createDepthImage [[1, 2], [3, 4]] (some [[5]]) = .error .valueError :=
  c6_mismatch_fails_with_value_error [[1, 2], [3, 4]] [[5]] (by decide)

/-- C8: undo on the empty sample set is a no-op that raises nothing (the
IndexError of pop is caught inside undoPoint), and adding one sample then
undoing twice leaves the set empty. -/
theorem c8_undo_empty_noop (p : ℚ × ℚ) (d : ℚ) :
    undoPoint ([] : List Sample) = [] ∧
      undoPoint (undoPoint (addPoint [] p d)) = [] :=
  ⟨rfl, rfl⟩

/-- C9: the depth field is a pure function of the sample list, and undo
followed by re-adding the removed sample restores the sample list exactly, so
the recomputed field equals the field from before the undo, for every
deterministic triangulation builder and every grid size. -/
theorem c9_undo_readd_restores_field (f : List Sample → List Tri)
    (pts : List Sample) (p : ℚ × ℚ) (d : ℚ) (w h : ℕ) :
    updateDepthMap (f (addPoint (undoPoint (addPoint pts p d)) p d))
        (addPoint (undoPoint (addPoint pts p d)) p d) w h
      = updateDepthMap (f (addPoint pts p d)) (addPoint pts p d) w h := by
  rw [undo_add]

/-- C10: evaluation at the failing input: starting from the initial session,
loading a 100 by 100 image first clears, which recomputes the depth map while
the old default viewer size of 50 by 50 is still stored, and then records the
new size without recomputing; so the raster offered for export immediately
after the load is 50 by 50 although the loaded source image measures 100 by
100, refuting the claim there. -/
theorem c10_stale_export_dimensions_after_load :
    ∃ sess : Session,
      Session.setImage (fun _ => []) Session.init 0 (100, 100) = .ok sess ∧
      sess.sourceSize = some (100, 100) ∧
      Session.exportDepthMap sess
        = .ok (some (List.replicate 50 (List.replicate 50 255))) ∧
      (List.replicate 50 (List.replicate 50 (255 : ℕ))).length ≠ 100 := by
  refine ⟨⟨some 0, some (100, 100),
    ⟨[], (100, 100), some (List.replicate 50 (List.replicate 50 255))⟩⟩,
    rfl, rfl, rfl, by simp⟩

end Depthify
